import Mathlib

/-!
Verification of the `concurrent_git_merge` repository.

This file embeds the core of `src/concurrent_git_merge.py` (and the
report aggregator of `src/merge_git_repos.py`) in Lean 4 and proves the
frozen claims about it.

Modelling conventions:
* Python dicts whose keys may be absent become structures with `Option` fields;
  a raw dict access (`d['k']`) that can raise `KeyError` is modelled through
  `dictGet`, which returns `Except`.
* `re.split(':', s)` is modelled by `splitOnChar` on the character list
  (structural recursion, identical splitting semantics for a one-char pattern).
* `str.strip()` is modelled by `pyStrip` over the standard ASCII whitespace set.
* Subprocess execution is modelled by an environment (`World`) that supplies the
  exit code and combined stdout+stderr of each command the task runs, in the
  order the Python code runs them.  Wall-clock timestamps are abstract `Nat`s
  supplied by the `World` (the float formatting of `format_timedelta` is not
  modelled; `task_duration` is kept as the numeric difference).
* jinja2 rendering (`Environment().from_string(t).render(m)`) is a call into an
  external library: it can raise (`TemplateSyntaxError`, `UndefinedError`), so
  it is modelled as returning `Except`, with the outcome of the one rendering
  call a task performs supplied by the environment like a subprocess result.
  Because the rendering happens before the `try` block of `execute_merge`
  (line 379), its exception escapes the task uncaught, and `execute_merge`
  itself returns `Except`.  No purity or determinism of the library is
  assumed beyond that single call receiving one outcome.
* Log-file writes (`log_task`) and logger calls become `Event.log` entries in
  the task's event trace; the serialized JSON snapshot bodies are elided, the
  event only marks that the write happens at that point of the trace.
-/

/-! ### Python string helpers -/

/-- The ASCII whitespace characters stripped by Python's `str.strip()`. -/
def isPySpace (c : Char) : Bool :=
  c = ' ' || c = '\t' || c = '\n' || c = '\r' || c = '\x0b' || c = '\x0c'

/-- Python `str.strip()` on the underlying character list. -/
def pyStripList (l : List Char) : List Char :=
  List.rdropWhile isPySpace (List.dropWhile isPySpace l)

/-- Python's `str.strip()`. -/
def pyStrip (s : String) : String :=
  String.mk (pyStripList s.data)

/-- Python `re.split(sep, s)` for a single-character separator, on character lists.
`splitOnChar sep [] = [[]]`, mirroring `re.split(':', '') == ['']`. -/
def splitOnChar (sep : Char) : List Char → List (List Char)
  | [] => [[]]
  | c :: rest =>
    let r := splitOnChar sep rest
    if c = sep then [] :: r
    else
      match r with
      | h :: t => (c :: h) :: t
      | [] => [[c]]

/-- Python `re.split(':', s)` as a list of strings. -/
def pySplitColon (s : String) : List String :=
  (splitOnChar ':' s.data).map (fun l => String.mk l)

/-- Python's `repr` of a list of (quote-free) strings, as used when a list is
interpolated into an f-string. -/
def pyListRepr (xs : List String) : String :=
  "[" ++ String.intercalate ", " (xs.map (fun x => "'" ++ x ++ "'")) ++ "]"

/-- A raw Python dict access `d[key]` on a field that may be absent:
returns the value or raises `KeyError`. -/
def dictGet (v : Option String) (key : String) : Except String String :=
  match v with
  | some s => Except.ok s
  | none => Except.error ("KeyError: '" ++ key ++ "'")

/-- Substring containment: `pat` occurs contiguously in `s`. -/
def strContains (s pat : String) : Prop := List.IsInfix pat.data s.data

instance strContainsDecidable (s pat : String) : Decidable (strContains s pat) :=
  List.decidableInfix pat.data s.data

/-! ### Task Descriptor Builder (`make_repo_metadata`, `make_repos_metadata`,
`validate_repos_metadata` of `concurrent_git_merge.py`) -/

/-- A repo descriptor as built by `make_repo_metadata`: a dict whose optional
keys are present iff the corresponding spec segment is non-blank. -/
structure RepoMetadata where
  repo_data_from_parameter : String
  repo_local_name : Option String
  source_ref : Option String
  dest_branch : Option String
  prj_and_repo_remote_name : Option String
deriving Repr, DecidableEq

/-- The `ValueError` message of `make_repo_metadata`. -/
def formatErrorMsg (repo_data_from_parameter : String) : String :=
  "Given repo_data '" ++ repo_data_from_parameter ++ "' has unexpected format. " ++
    "See help for parameter -r/--repos-data for accepted formats."

/-- Model of `x = part.strip(); if x: md[key] = x` — the key is present iff the stripped
segment is non-empty. -/
def optOfStripped (s : String) : Option String :=
  if pyStrip s = "" then none else some (pyStrip s)

/-- Function `make_repo_metadata` (concurrent_git_merge.py lines 219-250). -/
def make_repo_metadata (repo_data_from_parameter : String) : Except String RepoMetadata :=
  let parts := pySplitColon repo_data_from_parameter
  if 1 ≤ parts.length ∧ parts.length ≤ 4 then
    let padded := parts ++ List.replicate (4 - parts.length) ""
    Except.ok
      { repo_data_from_parameter := repo_data_from_parameter
        repo_local_name := optOfStripped (padded.getD 0 "")
        source_ref := optOfStripped (padded.getD 1 "")
        dest_branch := optOfStripped (padded.getD 2 "")
        prj_and_repo_remote_name := optOfStripped (padded.getD 3 "") }
  else
    Except.error (formatErrorMsg repo_data_from_parameter)

/-- Default application of `make_repos_metadata`: a key absent from the
descriptor is set to the (already stripped) default. -/
def applyDefaults (default_source_ref default_dest_branch : String)
    (md : RepoMetadata) : RepoMetadata :=
  { md with
    source_ref := some (md.source_ref.getD default_source_ref)
    dest_branch := some (md.dest_branch.getD default_dest_branch) }

/-- The `for repo_data in repos_data` loop of `make_repos_metadata`; an
exception from `make_repo_metadata` aborts the whole loop. -/
def makeReposMetadataLoop (dS dD : String) : List String → Except String (List RepoMetadata)
  | [] => Except.ok []
  | repo_data :: rest =>
    match make_repo_metadata repo_data with
    | Except.error e => Except.error e
    | Except.ok md =>
      match makeReposMetadataLoop dS dD rest with
      | Except.error e => Except.error e
      | Except.ok mds => Except.ok (applyDefaults dS dD md :: mds)

/-- Function `make_repos_metadata` (concurrent_git_merge.py lines 253-278): the defaults
are stripped once, then each spec is parsed and the defaults applied. -/
def make_repos_metadata (repos_data : List String)
    (default_source_ref default_dest_branch : String) : Except String (List RepoMetadata) :=
  makeReposMetadataLoop (pyStrip default_source_ref) (pyStrip default_dest_branch) repos_data

/-- The loop body of `validate_repos_metadata`, threading the `errors` and
`repo_local_names` accumulators.  The raw dict accesses are modelled by
`dictGet` and can raise `KeyError`. -/
def validateLoop : List RepoMetadata → List String → List String →
    Except String (List String × List String)
  | [], errors, names => Except.ok (errors, names)
  | md :: rest, errors, names =>
    let rdfp := md.repo_data_from_parameter
    match dictGet md.repo_local_name "repo_local_name" with
    | Except.error e => Except.error e
    | Except.ok rln =>
      let acc :=
        if rln = "" then
          (errors ++ ["Missing repo-local-name in repo-data '" ++ rdfp ++ "'"], names)
        else (errors, names ++ [rln])
      match dictGet md.source_ref "source_ref" with
      | Except.error e => Except.error e
      | Except.ok sr =>
        let errors2 :=
          if sr = "" then
            acc.1 ++ ["Missing source-ref in or for repo-data '" ++ rdfp ++ "'"]
          else acc.1
        match dictGet md.dest_branch "dest_branch" with
        | Except.error e => Except.error e
        | Except.ok db =>
          let errors3 :=
            if db = "" then
              errors2 ++ ["Missing dest-branch in or for repo-data '" ++ rdfp ++ "'"]
            else errors2
          validateLoop rest errors3 acc.2

/-- Function `validate_repos_metadata` (concurrent_git_merge.py lines 281-309).
`len(set(repo_local_names))` is `repo_local_names.dedup.length`. -/
def validate_repos_metadata (repos_metadata : List RepoMetadata) :
    Except String (List String) :=
  match validateLoop repos_metadata [] [] with
  | Except.error e => Except.error e
  | Except.ok (errors, repo_local_names) =>
    Except.ok
      (if repo_local_names.dedup.length < repos_metadata.length then
        errors ++
          ["Values of repo_local_name given in parameter -r/--repos-data not unique." ++
            " Values are: " ++ pyListRepr repo_local_names]
      else errors)

/-! ### Command Runner (`run_command` of `concurrent_git_merge.py`) -/

/-- The outcome of one `subprocess.run` with stderr redirected into stdout. -/
structure CmdResult where
  returncode : Int
  stdout : String
deriving Repr, DecidableEq

/-- The message of the exception raised by `run_command` on a honored non-zero
exit code; `output` is `"\n" + stdout` or `""` depending on `output_on_error`. -/
def commandFailedMsg (repo_name command : String) (returncode : Int)
    (output : String) : String :=
  repo_name ++ ": The following command exited with exit-code " ++ toString returncode ++
    ":\n" ++ command ++ output

/-- Function `run_command` (concurrent_git_merge.py lines 326-341), as a function of the
subprocess outcome `r`.  Log-file writes and `suppress_stdout` (which only
affects logging) are modelled at the call sites via the event trace. -/
def run_command (command repo_name : String) (honor_returncode output_on_error : Bool)
    (r : CmdResult) : Except String CmdResult :=
  if honor_returncode && r.returncode != 0 then
    Except.error (commandFailedMsg repo_name command r.returncode
      (if output_on_error then "\n" ++ r.stdout else ""))
  else Except.ok r

/-! ### Merge Task State Machine (`execute_merge` of `concurrent_git_merge.py`) -/

/-- The process-wide configuration read by `execute_merge` from `g_cl_args`. -/
structure Config where
  repos_dir : String
  logs_dir : String
  merge_options : String
  merge_branch_template : Option String
  pre_script : Option String
  post_script : Option String
deriving Repr, DecidableEq

/-- The environment of one task: outcomes of the external commands the task may
run, presence of the repo's `.git` directory, and the task's clock readings. -/
structure World where
  task_start : Nat
  task_end : Nat
  pre_script_result : CmdResult
  git_repo_present : Bool
  reset_result : CmdResult
  clean_result : CmdResult
  checkout_dest_result : CmdResult
  show_ref_result : CmdResult
  checkout_merge_branch_result : CmdResult
  merge_result : CmdResult
  post_script_result : CmdResult
deriving Repr, DecidableEq

/-- One observable step of a task: an executed command (with the
`honor_returncode` flag it was run under and its exit code) or a log write. -/
inductive Event where
  | command (cmd : String) (honor_returncode : Bool) (returncode : Int)
  | log (content : String)
deriving Repr, DecidableEq

/-- A repo descriptor after validation, as read at the top of `execute_merge`
(the three raw dict accesses of lines 367-369 require these keys). -/
structure ResolvedRepo where
  repo_data_from_parameter : String
  repo_local_name : String
  source_ref : String
  dest_branch : String
deriving Repr, DecidableEq

/-- The descriptor during and after `execute_merge`, with the fields the task
populates.  `task_duration` is the abstract `Nat` difference of the clock
readings. -/
structure RunMeta where
  repo_data_from_parameter : String
  repo_local_name : String
  source_ref : String
  dest_branch : String
  task_start : Nat
  repo_dir : String
  repos_dir : String
  logs_dir : String
  merge_branch : Option String
  task_error_details : Option String
  task_end : Option Nat
  task_duration : Option Nat
  task_finish_status : Option String
deriving Repr, DecidableEq

/-- Function `make_mergebranch_name` (concurrent_git_merge.py lines 344-362).
`jinja_render` stands for the external-library call
`Environment().from_string(tmpl).render(md)`: it can raise
(`TemplateSyntaxError` for a malformed template, `UndefinedError` at render
time), modelled by `Except.error`, and the outcome of the single rendering
call a task performs is supplied by the environment, like a subprocess
result.  Nothing about the library beyond that one outcome is assumed. -/
def make_mergebranch_name (jinja_render : String → RunMeta → Except String String)
    (merge_branch_template : String) (repo_metadata : RunMeta) : Except String String :=
  jinja_render merge_branch_template repo_metadata

/-- The descriptor state after lines 366-379 of `execute_merge`: run-time
fields populated and, when a template is configured, the merge-branch name
rendered.  These lines run before the `try` block, so a rendering failure here
is an exception the task does not catch.  The dict reads of lines 367-369
cannot fail at this point because validation guaranteed the keys (hence the
`ResolvedRepo` input).  `pathlib.Path(repos_dir, name)` is modelled as
slash-joining. -/
def initRunMeta (cfg : Config) (w : World) (jr : String → RunMeta → Except String String)
    (m : ResolvedRepo) : Except String RunMeta :=
  let base : RunMeta :=
    { repo_data_from_parameter := m.repo_data_from_parameter
      repo_local_name := m.repo_local_name
      source_ref := m.source_ref
      dest_branch := m.dest_branch
      task_start := w.task_start
      repo_dir := cfg.repos_dir ++ "/" ++ m.repo_local_name
      repos_dir := cfg.repos_dir
      logs_dir := cfg.logs_dir
      merge_branch := none
      task_error_details := none
      task_end := none
      task_duration := none
      task_finish_status := none }
  match cfg.merge_branch_template with
  | some t =>
    match make_mergebranch_name jr t base with
    | Except.error e => Except.error e
    | Except.ok mb => Except.ok { base with merge_branch := some mb }
  | none => Except.ok base

/-- The descriptor state the `try` block runs on: the populated descriptor with
`task_error_details` initialized to `''` (line 389); still fallible because it
includes the pre-`try` merge-branch rendering of line 379. -/
def taskMeta (cfg : Config) (w : World) (jr : String → RunMeta → Except String String)
    (m0 : ResolvedRepo) : Except String RunMeta :=
  (initRunMeta cfg w jr m0).map (fun m => { m with task_error_details := some "" })

/-- Sequencing inside the `try` block: a raised exception short-circuits the
remaining steps; events accumulate. -/
def seqStep (a : List Event × Option String) (k : Unit → List Event × Option String) :
    List Event × Option String :=
  match a with
  | (es, some e) => (es, some e)
  | (es, none) => (es ++ (k ()).1, (k ()).2)

/-- One `run_command` call inside `execute_merge`: records the command event and
converts a raised exception into the step's error. -/
def runCmdStep (command repo_name : String) (honor_returncode output_on_error : Bool)
    (r : CmdResult) : List Event × Option String :=
  ([Event.command command honor_returncode r.returncode],
    match run_command command repo_name honor_returncode output_on_error r with
    | Except.ok _ => none
    | Except.error e => some e)

/-- The error message of the missing-repository check (lines 410-415). -/
def missingRepoMsg (repo_dir repo_local_name repo_data_from_parameter repos_dir : String) :
    String :=
  "'" ++ repo_dir ++ "' is not a Git-repo. Repo '" ++ repo_local_name ++
    "' is given in parameter -r/--repos-data " ++ repo_data_from_parameter ++
    ", but it is missing in parameter -d/--repos-dir " ++ repos_dir ++ "."

/-- The deferred merge-failure message (lines 451-454). -/
def mergeFailedMsg (repo_dir stdout : String) : String :=
  repo_dir ++ ": git merge exited with non-zero status. Output: " ++ stdout

/-- The pre-script step (lines 400-407): `run_command` with
`output_on_error=False`. -/
def preScriptStep (cfg : Config) (w : World) (m : RunMeta) : List Event × Option String :=
  match cfg.pre_script with
  | none => ([], none)
  | some script =>
    seqStep ([Event.log "\nPRE-SCRIPT BEGIN >>>>>\n\n",
              Event.log "# Pre-script called by command:\n"], none)
      (fun _ => seqStep (runCmdStep script m.repo_local_name true false w.pre_script_result)
        (fun _ => ([Event.log ">>>>> PRE-SCRIPT END\n\n"], none)))

/-- The missing-repository check (lines 409-415). -/
def repoCheckStep (cfg : Config) (w : World) (m : RunMeta) : List Event × Option String :=
  if w.git_repo_present then ([], none)
  else ([], some (missingRepoMsg m.repo_dir m.repo_local_name m.repo_data_from_parameter
    cfg.repos_dir))

/-- The hard-reset / clean / checkout-dest sequence (lines 417-420). -/
def gitCheckoutPrep (w : World) (m : RunMeta) : List Event × Option String :=
  seqStep (runCmdStep ("git -C " ++ m.repo_dir ++ " reset --hard") m.repo_local_name
      true true w.reset_result)
    (fun _ => seqStep (runCmdStep ("git -C " ++ m.repo_dir ++ " clean -fd") m.repo_local_name
        true true w.clean_result)
      (fun _ => runCmdStep ("git -C " ++ m.repo_dir ++ " checkout " ++ m.dest_branch)
        m.repo_local_name true true w.checkout_dest_result))

/-- The branch-existence probe command (line 426). -/
def showRefCmd (m : RunMeta) (mb : String) : String :=
  "git -C " ++ m.repo_dir ++ " show-ref --verify --quiet refs/heads/" ++ mb

/-- The merge-branch checkout command (line 435); `b` is `""` or `"-b "`. -/
def checkoutMergeBranchCmd (m : RunMeta) (b mb : String) : String :=
  "git -C " ++ m.repo_dir ++ " checkout " ++ b ++ mb

/-- The merge-branch setup step (lines 422-436): probe with
`honor_returncode=False`, then check out reusing or creating (`-b`). -/
def mergeBranchSetupStep (cfg : Config) (w : World) (m : RunMeta) :
    List Event × Option String :=
  match cfg.merge_branch_template with
  | none => ([], none)
  | some _ =>
    match m.merge_branch with
    | none => ([], some "KeyError: 'merge_branch'")
    | some mb =>
      seqStep (runCmdStep (showRefCmd m mb) m.repo_local_name false true w.show_ref_result)
        (fun _ =>
          let reuse := w.show_ref_result.returncode = 0
          let note := if reuse then "  (Merge-branch is present, reuse it)\n\n"
            else "  (Merge-branch not present)\n\n"
          let b := if reuse then "" else "-b "
          seqStep ([Event.log note], none)
            (fun _ => runCmdStep (checkoutMergeBranchCmd m b mb) m.repo_local_name
              true true w.checkout_merge_branch_result))

/-- The merge command (line 440). -/
def mergeCmd (cfg : Config) (m : RunMeta) : String :=
  "git -C " ++ m.repo_dir ++ " merge --no-edit " ++ cfg.merge_options ++ " " ++ m.source_ref

/-- The merge step (lines 438-441): `honor_returncode=False`, the exit code is
captured and only acted on after the post-script. -/
def mergeStep (cfg : Config) (w : World) (m : RunMeta) : List Event × Option String :=
  runCmdStep (mergeCmd cfg m) m.repo_local_name false true w.merge_result

/-- The post-script step (lines 443-449): `run_command` with
`output_on_error=False`. -/
def postScriptStep (cfg : Config) (w : World) (m : RunMeta) : List Event × Option String :=
  match cfg.post_script with
  | none => ([], none)
  | some script =>
    seqStep ([Event.log "POST-SCRIPT BEGIN >>>>>\n\n"], none)
      (fun _ => seqStep (runCmdStep script m.repo_local_name true false w.post_script_result)
        (fun _ => ([Event.log ">>>>> POST-SCRIPT END\n\n"], none)))

/-- The deferred merge-failure signal (lines 451-454). -/
def mergeSignalStep (w : World) (m : RunMeta) : List Event × Option String :=
  if w.merge_result.returncode != 0 then
    ([], some (mergeFailedMsg m.repo_dir w.merge_result.stdout))
  else ([], none)

/-- Everything up to and including the merge step of the `try` block. -/
def prefixPart (cfg : Config) (w : World) (m : RunMeta) : List Event × Option String :=
  seqStep (preScriptStep cfg w m) (fun _ =>
    seqStep (repoCheckStep cfg w m) (fun _ =>
      seqStep (gitCheckoutPrep w m) (fun _ =>
        seqStep (mergeBranchSetupStep cfg w m) (fun _ => mergeStep cfg w m))))

/-- The whole `try` block of `execute_merge` (lines 391-454). -/
def tryBody (cfg : Config) (w : World) (m : RunMeta) : List Event × Option String :=
  seqStep (prefixPart cfg w m) (fun _ =>
    seqStep (postScriptStep cfg w m) (fun _ => mergeSignalStep w m))

/-- The result of one task: its event trace, the mutated descriptor, and the
value `execute_merge` returns (`[repo_local_name, e]` on failure, `None`
otherwise). -/
structure TaskResult where
  events : List Event
  finalMeta : RunMeta
  retval : Option (String × String)
deriving Repr, DecidableEq

/-- Log line at task begin (lines 382-384). -/
def startedMsg (repo_local_name : String) : String :=
  "Started merge-task for " ++ repo_local_name ++ "."

/-- Summary log line written in the `finally` block (line 466). -/
def finishedMsg (repo_local_name task_finish_status : String) : String :=
  "Merge-task for '" ++ repo_local_name ++ "' finished " ++ task_finish_status ++ "."

/-- The `except`/`finally` part of `execute_merge` (lines 456-473), applied to
the outcome of the `try` block: the `except` clause converts a raised exception
into the return value and the failure fields, and the `finally` clause always
finalizes the descriptor and writes the final log lines.  The task-begin log
lines (written before the `try` block) are also assembled here. -/
def finalizeTask (m1 : RunMeta) (w : World) (body : List Event × Option String) :
    TaskResult :=
  let task_finish_status : String :=
    match body.2 with
    | none => "successfully"
    | some _ => "with FAILURE"
  let finalMeta : RunMeta :=
    { m1 with
      task_error_details := some (match body.2 with | none => "" | some e => e)
      task_end := some w.task_end
      task_duration := some (w.task_end - w.task_start)
      task_finish_status := some task_finish_status }
  { events := [Event.log (startedMsg m1.repo_local_name ++ "\n"),
      Event.log "repo_metadata at task-begin"] ++ body.1 ++
      [Event.log (finishedMsg m1.repo_local_name task_finish_status ++ "\n"),
       Event.log "repo_metadata at task-end"]
    finalMeta := finalMeta
    retval := body.2.map (fun e => (m1.repo_local_name, e)) }

/-- Function `execute_merge` (concurrent_git_merge.py lines 365-473): populate
the descriptor — fallibly, since the jinja2 rendering of line 379 runs before
the `try` block, so its exception escapes `execute_merge` uncaught and the
`finally` finalization is skipped — then run the `try` block and apply the
`except`/`finally` handling. -/
def execute_merge (cfg : Config) (w : World) (jr : String → RunMeta → Except String String)
    (m0 : ResolvedRepo) : Except String TaskResult :=
  match taskMeta cfg w jr m0 with
  | Except.error e => Except.error e
  | Except.ok m1 => Except.ok (finalizeTask m1 w (tryBody cfg w m1))

/-- The pre-steps of a task up to (excluding) the merge-branch setup all
succeed: pre-script (if configured) exits 0, the repo is present, and the
reset/clean/checkout-dest commands exit 0. -/
def reachesMergeBranchSetup (cfg : Config) (w : World) : Prop :=
  (∀ s, cfg.pre_script = some s → w.pre_script_result.returncode = 0) ∧
  w.git_repo_present = true ∧
  w.reset_result.returncode = 0 ∧
  w.clean_result.returncode = 0 ∧
  w.checkout_dest_result.returncode = 0

/-- All steps before the merge succeed, so the merge command is reached. -/
def reachesMerge (cfg : Config) (w : World) : Prop :=
  reachesMergeBranchSetup cfg w ∧
  (∀ t, cfg.merge_branch_template = some t →
    w.checkout_merge_branch_result.returncode = 0)

/-- The complete set of command lines a task can ever pass to `run_command`:
the two operator-supplied hook scripts and the six git invocations.  The probe
result decides the `-b ` flag of the merge-branch checkout. -/
def allowedCommands (cfg : Config) (w : World) (m : RunMeta) : List String :=
  (match cfg.pre_script with | some s => [s] | none => []) ++
  ["git -C " ++ m.repo_dir ++ " reset --hard",
   "git -C " ++ m.repo_dir ++ " clean -fd",
   "git -C " ++ m.repo_dir ++ " checkout " ++ m.dest_branch] ++
  (match m.merge_branch with
   | some mb =>
     [showRefCmd m mb,
      checkoutMergeBranchCmd m (if w.show_ref_result.returncode = 0 then "" else "-b ") mb]
   | none => []) ++
  [mergeCmd cfg m] ++
  (match cfg.post_script with | some s => [s] | none => [])

/-! ### Orchestrator exit code (`main` of `concurrent_git_merge.py`) -/

/-- The fields of a post-run descriptor that `main`'s aggregation loop (lines
533-547) reads. -/
structure TaskRow where
  repo_local_name : String
  source_ref : String
  dest_branch : String
  task_duration : Nat
  task_finish_status : String
  task_error_details : String
deriving Repr, DecidableEq

/-- The `is_error` flag computed by `main`'s loop over `repos_metadata`. -/
def mainIsError (rows : List TaskRow) : Bool :=
  rows.foldl (fun acc row => if row.task_error_details ≠ "" then true else acc) false

/-- The process exit code derived in `main` (lines 512-515 and 558-560):
1 when descriptor validation produced errors (before any task runs), else 1
when any task recorded a non-empty `task_error_details`, else 0. -/
def main_exit_code (validation_errors : List String) (rows : List TaskRow) : Nat :=
  if validation_errors ≠ [] then 1
  else if mainIsError rows then 1
  else 0

/-! ### Report Aggregator (`make_report_xml_content` of `merge_git_repos.py`) -/

/-- The fields `make_report_xml_content` reads (via `dict.get` with a default,
so each may be absent). -/
structure ReportMeta where
  repo_local_name : Option String
  task_finish_status : Option String
  source_branch : Option String
  dest_branch : Option String
  task_duration : Option String
  task_finish_details : Option String
deriving Repr, DecidableEq

/-- One `<td>` cell. -/
def tdCell (s : String) : String := "<td>" ++ s ++ "</td>"

/-- The header line of the report table. -/
def reportHeaderLine : String :=
  "<tr>" ++ tdCell "repo_local_name" ++ tdCell "task_finish_status" ++
    tdCell "source_branch" ++ tdCell "dest_branch" ++ tdCell "task_duration" ++
    tdCell "task_finish_details" ++ "</tr>"

/-- The six cells of one row, in column order; `dict.get(md, key, default)`
is `Option.getD`. -/
def reportCells (m : ReportMeta) : List (Option String) :=
  [m.repo_local_name, m.task_finish_status, m.source_branch, m.dest_branch,
   m.task_duration, m.task_finish_details]

/-- One data row of the report (loop body, lines 507-517 of
merge_git_repos.py); `EMPTY_CELL_DEFAULT` is `'&nbsp;'`. -/
def reportRowLine (m : ReportMeta) : String :=
  "<tr>" ++ String.join ((reportCells m).map (fun c => tdCell (c.getD "&nbsp;"))) ++ "</tr>"

/-- The `lines` list built by `make_report_xml_content`. -/
def reportLines (repos_metadata : List ReportMeta) : List String :=
  (repos_metadata.foldl (fun lines m => lines ++ [reportRowLine m])
    ["<table>", reportHeaderLine]) ++ ["</table>"]

/-- Function `make_report_xml_content` (merge_git_repos.py lines 491-521). -/
def make_report_xml_content (repos_metadata : List ReportMeta) : String :=
  String.intercalate "\n" (reportLines repos_metadata)

/-- Erase the recorded raw-spec string, for comparing descriptors built from
different spellings of the same spec. -/
def stripRawSpec (md : RepoMetadata) : RepoMetadata :=
  { md with repo_data_from_parameter := "" }

/-- A concrete configuration with a post-script, used to instantiate theorems. -/
def sampleCfg : Config := ⟨"r", "lg", "", none, none, some "post.sh"⟩

/-- A concrete task environment where every prepared command succeeds but the
merge exits 1, used to instantiate theorems. -/
def sampleWorld : World :=
  ⟨0, 5, ⟨0, ""⟩, true, ⟨0, ""⟩, ⟨0, ""⟩, ⟨0, ""⟩, ⟨1, ""⟩, ⟨0, ""⟩, ⟨1, "conflict"⟩, ⟨0, ""⟩⟩

/-- A concrete resolved repo descriptor, used to instantiate theorems. -/
def sampleRepo : ResolvedRepo := ⟨"a", "a", "s", "d"⟩

/-- A concrete configuration with a merge-branch template, used to instantiate
theorems. -/
def sampleCfgMB : Config := ⟨"r", "lg", "", some "tpl", none, some "post.sh"⟩

/-- The populated descriptor `taskMeta sampleCfg sampleWorld (fun _ _ =>
Except.ok "mb") sampleRepo` evaluates to (no template, so no merge branch). -/
def sampleTaskMeta : RunMeta :=
  ⟨"a", "a", "s", "d", 0, "r/a", "r", "lg", none, some "", none, none, none⟩

/-- The populated descriptor `taskMeta sampleCfgMB sampleWorld (fun _ _ =>
Except.ok "mb") sampleRepo` evaluates to (template configured). -/
def sampleTaskMetaMB : RunMeta :=
  ⟨"a", "a", "s", "d", 0, "r/a", "r", "lg", some "mb", some "", none, none, none⟩

/-- A rendering call that raises, as a malformed jinja2 template does. -/
def sampleJrFail : String → RunMeta → Except String String :=
  fun _ _ =>
    Except.error "jinja2.exceptions.TemplateSyntaxError: unexpected end of template"

/-! ## Helper lemmas -/

theorem seqStep_some (es : List Event) (e : String) (k : Unit → List Event × Option String) :
    seqStep (es, some e) k = (es, some e) := rfl

theorem seqStep_none (es : List Event) (k : Unit → List Event × Option String) :
    seqStep (es, none) k = (es ++ (k ()).1, (k ()).2) := rfl

theorem mem_seqStep {x : Event} (a : List Event × Option String)
    (k : Unit → List Event × Option String) (h : x ∈ (seqStep a k).1) :
    x ∈ a.1 ∨ x ∈ (k ()).1 := by
  obtain ⟨es, err⟩ := a
  cases err with
  | none =>
    rcases List.mem_append.mp (by simpa [seqStep] using h) with h1 | h1
    · exact Or.inl h1
    · exact Or.inr h1
  | some e => exact Or.inl (by simpa [seqStep] using h)

theorem dropWhile_pyStripList (l : List Char) :
    List.dropWhile isPySpace (pyStripList l) = pyStripList l := by
  unfold pyStripList
  rw [List.dropWhile_eq_self_iff]
  intro hl
  have hpre := List.rdropWhile_prefix isPySpace (List.dropWhile isPySpace l)
  have h0 : 0 < (List.dropWhile isPySpace l).length := lt_of_lt_of_le hl hpre.length_le
  have hget := hpre.getElem (Nat.lt_of_lt_of_le hl (le_refl _))
  rw [List.get_eq_getElem, hpre.getElem hl]
  have := List.dropWhile_get_zero_not isPySpace l h0
  simpa [List.get_eq_getElem] using this

theorem pyStripList_idem (l : List Char) : pyStripList (pyStripList l) = pyStripList l := by
  have h1 := dropWhile_pyStripList l
  show List.rdropWhile isPySpace (List.dropWhile isPySpace (pyStripList l)) = pyStripList l
  rw [h1]
  show List.rdropWhile isPySpace
      (List.rdropWhile isPySpace (List.dropWhile isPySpace l)) = pyStripList l
  rw [List.rdropWhile_idempotent]
  rfl

theorem pyStrip_idem (s : String) : pyStrip (pyStrip s) = pyStrip s := by
  show String.mk (pyStripList (String.mk (pyStripList s.data)).data) = _
  rw [show (String.mk (pyStripList s.data)).data = pyStripList s.data from rfl,
    pyStripList_idem]
  rfl

theorem getD_pad (l : List String) (i : Nat) :
    (l ++ List.replicate (4 - l.length) "").getD i "" = l.getD i "" := by
  rcases Nat.lt_or_ge i l.length with h | h
  · exact List.getD_append _ _ _ _ h
  · rw [List.getD_append_right _ _ _ _ h, List.getD_eq_default _ _ h]
    rcases Nat.lt_or_ge (i - l.length) (4 - l.length) with h2 | h2
    · rw [List.getD_eq_getElem _ _ (by simpa using h2)]
      simp
    · rw [List.getD_eq_default]
      simpa using h2

theorem mainIsError_foldl (rows : List TaskRow) (acc : Bool) :
    (rows.foldl (fun a row => if row.task_error_details ≠ "" then true else a) acc = true ↔
      acc = true ∨ ∃ r ∈ rows, r.task_error_details ≠ "") := by
  induction rows generalizing acc with
  | nil => simp
  | cons r t ih =>
    simp only [List.foldl_cons]
    rw [ih]
    by_cases h : r.task_error_details = "" <;> simp [h]

theorem mainIsError_iff (rows : List TaskRow) :
    mainIsError rows = true ↔ ∃ r ∈ rows, r.task_error_details ≠ "" := by
  unfold mainIsError
  rw [mainIsError_foldl]
  simp

theorem foldl_report_rows (ms : List ReportMeta) (init : List String) :
    ms.foldl (fun lines m => lines ++ [reportRowLine m]) init =
      init ++ ms.map reportRowLine := by
  induction ms generalizing init with
  | nil => simp
  | cons m t ih => simp [List.foldl_cons, ih]

theorem data_commandFailedMsg (repo_name command : String) (rc : Int) (output : String) :
    (commandFailedMsg repo_name command rc output).data =
      repo_name.data ++ (": The following command exited with exit-code ").data ++
        (toString rc).data ++ (":\n").data ++ command.data ++ output.data := by
  simp [commandFailedMsg, String.data_append]

theorem fieldMatches_optOfStripped (x : String) :
    ((optOfStripped x = none ↔ pyStrip x = "") ∧
      ∀ v, optOfStripped x = some v → v = pyStrip x ∧ v ≠ "" ∧ pyStrip v = v) := by
  unfold optOfStripped
  by_cases h : pyStrip x = ""
  · simp [h]
  · refine ⟨by simp [h], ?_⟩
    intro v hv
    rw [if_neg h] at hv
    simp only [Option.some.injEq] at hv
    subst hv
    exact ⟨rfl, h, pyStrip_idem x⟩

theorem optOfStripped_some_ne (x u : String) (h : optOfStripped x = some u) : u ≠ "" := by
  unfold optOfStripped at h
  split at h
  · exact absurd h (by simp)
  · simp only [Option.some.injEq] at h
    subst h
    assumption

theorem mrm_shape (s : String) (md : RepoMetadata) (h : make_repo_metadata s = Except.ok md) :
    ∃ x0 x1 x2 x3, md = ⟨s, optOfStripped x0, optOfStripped x1, optOfStripped x2,
      optOfStripped x3⟩ := by
  simp only [make_repo_metadata] at h
  split at h
  · injection h with h2
    exact ⟨_, _, _, _, h2.symm⟩
  · exact absurd h (by simp)

theorem loop_mem (dS dD : String) (specs : List String) :
    ∀ (l : List RepoMetadata), makeReposMetadataLoop dS dD specs = Except.ok l →
    ∀ md ∈ l, ∃ spec md0, make_repo_metadata spec = Except.ok md0 ∧
      md = applyDefaults dS dD md0 := by
  induction specs with
  | nil =>
    intro l h md hmd
    simp only [makeReposMetadataLoop, Except.ok.injEq] at h
    subst h
    simp at hmd
  | cons spec rest ih =>
    intro l h md hmd
    simp only [makeReposMetadataLoop] at h
    cases h1 : make_repo_metadata spec with
    | error e => rw [h1] at h; exact absurd h (by simp)
    | ok md0 =>
      rw [h1] at h
      cases h2 : makeReposMetadataLoop dS dD rest with
      | error e => rw [h2] at h; exact absurd h (by simp)
      | ok mds =>
        rw [h2] at h
        simp only [Except.ok.injEq] at h
        subst h
        rcases List.mem_cons.mp hmd with rfl | hmem
        · exact ⟨spec, md0, h1, rfl⟩
        · exact ih mds h2 md hmem

/-! ## Claim theorems -/

/-- C1: the process exit code is 0 iff descriptor validation produced no
errors and every repository task recorded an empty `task_error_details`;
it is 1 iff validation reported errors or some task recorded an error. -/
theorem exit_code_zero_iff_no_errors (validation_errors : List String)
    (rows : List TaskRow) :
    (main_exit_code validation_errors rows = 0 ↔
      validation_errors = [] ∧ ∀ r ∈ rows, r.task_error_details = "") ∧
    (main_exit_code validation_errors rows = 1 ↔
      validation_errors ≠ [] ∨ ∃ r ∈ rows, r.task_error_details ≠ "") := by
  have hiff := mainIsError_iff rows
  unfold main_exit_code
  by_cases he : validation_errors = []
  · by_cases hm : mainIsError rows = true
    · obtain ⟨r, hr, hne⟩ := hiff.mp hm
      rw [if_neg (by simp [he]), if_pos hm]
      refine ⟨⟨fun h => absurd h one_ne_zero, ?_⟩, fun _ => Or.inr ⟨r, hr, hne⟩, fun _ => rfl⟩
      rintro ⟨-, hall⟩
      exact absurd (hall r hr) hne
    · have hall : ∀ r ∈ rows, r.task_error_details = "" := by
        intro r hr
        by_contra hne
        exact hm (hiff.mpr ⟨r, hr, hne⟩)
      rw [if_neg (by simp [he]), if_neg hm]
      refine ⟨⟨fun _ => ⟨he, hall⟩, fun _ => rfl⟩,
        fun h => absurd h zero_ne_one, ?_⟩
      rintro (hne | ⟨r, hr, hne⟩)
      · exact absurd he hne
      · exact absurd (hall r hr) hne
  · rw [if_pos he]
    exact ⟨⟨fun h => absurd h one_ne_zero, fun h => absurd h.1 he⟩,
      ⟨fun _ => Or.inl he, fun _ => rfl⟩⟩

/-- Witness for C1: concrete instance of `exit_code_zero_iff_no_errors`. -/
theorem exit_code_zero_iff_no_errors_witness :
    main_exit_code [] [] = 0 ↔
      ([] : List String) = [] ∧ ∀ r ∈ ([] : List TaskRow), r.task_error_details = "" :=
  (exit_code_zero_iff_no_errors [] []).1

/-- C2 (code bug): the claim says `validate_repos_metadata` collects one error
message per violation — including a missing repo-local-name — and never fails
any other way.  The code instead performs the raw dict access
`repo_metadata['repo_local_name']`, which raises `KeyError` on a descriptor
whose first spec segment was blank (e.g. the spec `":b:c"`), so the
"Missing repo-local-name" message is unreachable for builder-produced input. -/
theorem validate_repos_metadata_keyerror_on_missing_local_name :
    make_repos_metadata [":b:c"] "s" "d" =
      Except.ok [⟨":b:c", none, some "b", some "c", none⟩] ∧
    validate_repos_metadata [⟨":b:c", none, some "b", some "c", none⟩] =
      Except.error "KeyError: 'repo_local_name'" :=
  ⟨rfl, rfl⟩

/-- C9: `make_report_xml_content` is a pure total function producing exactly
one table row per descriptor in input order, and a missing field renders as
the placeholder `&nbsp;`. -/
theorem make_report_xml_content_rows_and_placeholders (ms : List ReportMeta) :
    make_report_xml_content ms =
      String.intercalate "\n"
        (["<table>", reportHeaderLine] ++ ms.map reportRowLine ++ ["</table>"]) ∧
    (reportLines ms).length = ms.length + 3 ∧
    (∀ m : ReportMeta, ∀ c ∈ reportCells m, c = none →
      tdCell (c.getD "&nbsp;") = tdCell "&nbsp;") := by
  refine ⟨?_, ?_, ?_⟩
  · unfold make_report_xml_content reportLines
    rw [foldl_report_rows]
  · unfold reportLines
    rw [foldl_report_rows]
    simp [List.length_append]
  · intro m c _ h
    subst h
    rfl

/-- Witness for C9. -/
theorem make_report_xml_content_rows_and_placeholders_witness :
    make_report_xml_content [] =
      String.intercalate "\n"
        (["<table>", reportHeaderLine] ++ ([] : List ReportMeta).map reportRowLine ++
          ["</table>"]) :=
  (make_report_xml_content_rows_and_placeholders []).1

/-- C10: for every spec accepted by `make_repo_metadata`, the raw-spec key is
present and unchanged; each optional key is present iff its (possibly absent,
hence empty) segment is non-blank after stripping; present values equal the
stripped segment, are non-empty, and carry no leading or trailing whitespace
(they are fixed points of `pyStrip`). -/
theorem make_repo_metadata_field_invariants (s : String) (md : RepoMetadata)
    (h : make_repo_metadata s = Except.ok md) :
    md.repo_data_from_parameter = s ∧
    ((md.repo_local_name = none ↔ pyStrip ((pySplitColon s).getD 0 "") = "") ∧
      ∀ v, md.repo_local_name = some v →
        v = pyStrip ((pySplitColon s).getD 0 "") ∧ v ≠ "" ∧ pyStrip v = v) ∧
    ((md.source_ref = none ↔ pyStrip ((pySplitColon s).getD 1 "") = "") ∧
      ∀ v, md.source_ref = some v →
        v = pyStrip ((pySplitColon s).getD 1 "") ∧ v ≠ "" ∧ pyStrip v = v) ∧
    ((md.dest_branch = none ↔ pyStrip ((pySplitColon s).getD 2 "") = "") ∧
      ∀ v, md.dest_branch = some v →
        v = pyStrip ((pySplitColon s).getD 2 "") ∧ v ≠ "" ∧ pyStrip v = v) ∧
    ((md.prj_and_repo_remote_name = none ↔ pyStrip ((pySplitColon s).getD 3 "") = "") ∧
      ∀ v, md.prj_and_repo_remote_name = some v →
        v = pyStrip ((pySplitColon s).getD 3 "") ∧ v ≠ "" ∧ pyStrip v = v) := by
  simp only [make_repo_metadata] at h
  split at h
  · injection h with h2
    subst h2
    refine ⟨rfl, ?_, ?_, ?_, ?_⟩
    all_goals
      simp only [getD_pad]
      exact fieldMatches_optOfStripped _
  · exact absurd h (by simp)

/-- Witness for C10. -/
theorem make_repo_metadata_field_invariants_witness :
    (RepoMetadata.mk "a" (some "a") none none none).repo_data_from_parameter = "a" :=
  (make_repo_metadata_field_invariants "a" ⟨"a", some "a", none, none, none⟩ rfl).1

/-- C5 counterexample: a whitespace-only default is a non-empty string, yet the
resolved `source_ref` of the descriptor built from `"repo-a"` is the empty
string, because defaults are stripped before being applied. -/
theorem whitespace_default_yields_empty_source_ref :
    make_repos_metadata ["repo-a"] " " "x" =
      Except.ok [⟨"repo-a", some "repo-a", some "", some "x", none⟩] ∧
    (" " : String) ≠ "" :=
  ⟨rfl, by decide⟩

/-- C5 (amended): for every accepted spec list, parsing followed by
default-application yields descriptors whose `source_ref`/`dest_branch` are
present and non-empty whenever the corresponding default is non-blank
(non-empty after whitespace stripping); and omitted trailing fields fall back
exactly like explicit-empty trailing fields: `"repo-a"`, `"repo-a:"`,
`"repo-a::"` and `"repo-a:::"` give descriptors agreeing on every field except
the recorded raw-spec string. -/
theorem resolved_defaults_nonblank_and_trailing_equiv :
    (∀ (specs : List String) (dS dD : String) (l : List RepoMetadata),
      make_repos_metadata specs dS dD = Except.ok l → ∀ md ∈ l,
      (pyStrip dS ≠ "" → md.source_ref ≠ some "" ∧ md.source_ref ≠ none) ∧
      (pyStrip dD ≠ "" → md.dest_branch ≠ some "" ∧ md.dest_branch ≠ none)) ∧
    (∀ dS dD : String,
      ((make_repos_metadata ["repo-a"] dS dD).map (List.map stripRawSpec) =
        (make_repos_metadata ["repo-a:"] dS dD).map (List.map stripRawSpec)) ∧
      ((make_repos_metadata ["repo-a:"] dS dD).map (List.map stripRawSpec) =
        (make_repos_metadata ["repo-a::"] dS dD).map (List.map stripRawSpec)) ∧
      ((make_repos_metadata ["repo-a::"] dS dD).map (List.map stripRawSpec) =
        (make_repos_metadata ["repo-a:::"] dS dD).map (List.map stripRawSpec))) := by
  constructor
  · intro specs dS dD l h md hmd
    obtain ⟨spec, md0, h1, rfl⟩ := loop_mem (pyStrip dS) (pyStrip dD) specs l h md hmd
    obtain ⟨x0, x1, x2, x3, rfl⟩ := mrm_shape spec md0 h1
    constructor
    · intro hS
      refine ⟨?_, by simp [applyDefaults]⟩
      simp only [applyDefaults, ne_eq, Option.some.injEq]
      cases hx : optOfStripped x1 with
      | none => simpa [hx] using hS
      | some u => simpa [hx] using optOfStripped_some_ne x1 u hx
    · intro hD
      refine ⟨?_, by simp [applyDefaults]⟩
      simp only [applyDefaults, ne_eq, Option.some.injEq]
      cases hx : optOfStripped x2 with
      | none => simpa [hx] using hD
      | some u => simpa [hx] using optOfStripped_some_ne x2 u hx
  · intro dS dD
    exact ⟨rfl, rfl, rfl⟩

/-- Witness for C5: a concrete instance with all hypotheses discharged. -/
theorem resolved_defaults_nonblank_witness :
    ((pyStrip "m" ≠ "" →
      (RepoMetadata.mk "repo-a" (some "repo-a") (some "m") (some "d") none).source_ref ≠
          some "" ∧
        (RepoMetadata.mk "repo-a" (some "repo-a") (some "m") (some "d") none).source_ref ≠
          none) ∧
      (pyStrip "d" ≠ "" →
        (RepoMetadata.mk "repo-a" (some "repo-a") (some "m") (some "d") none).dest_branch ≠
            some "" ∧
          (RepoMetadata.mk "repo-a" (some "repo-a") (some "m") (some "d") none).dest_branch ≠
            none)) ∧
    (make_repos_metadata ["repo-a"] "m" "d").map (List.map stripRawSpec) =
      (make_repos_metadata ["repo-a:"] "m" "d").map (List.map stripRawSpec) :=
  ⟨resolved_defaults_nonblank_and_trailing_equiv.1 ["repo-a"] "m" "d"
      [⟨"repo-a", some "repo-a", some "m", some "d", none⟩] rfl _ (by simp),
    (resolved_defaults_nonblank_and_trailing_equiv.2 "m" "d").1⟩

/-- C6 counterexample: with `output_on_error=False` (as used for the pre- and
post-script calls) the raised message carries the command and the exit code
but not the captured output. -/
theorem run_command_error_omits_output_when_disabled :
    run_command "c" "repo" true false ⟨1, "XYZ"⟩ =
      Except.error "repo: The following command exited with exit-code 1:\nc" ∧
    ¬ strContains "repo: The following command exited with exit-code 1:\nc" "XYZ" :=
  ⟨rfl, by decide⟩

/-- C6 (amended): `run_command` raises iff `honor_returncode` is true and the
exit code is non-zero; the raised message always carries the command and the
exit code, and also the captured combined output when `output_on_error` is
true (the default); in every other case the result with exit code and output
is returned without raising. -/
theorem run_command_raise_policy (command repo_name : String) (honor ooe : Bool)
    (r : CmdResult) :
    (honor = true ∧ r.returncode ≠ 0 →
      run_command command repo_name honor ooe r =
        Except.error (commandFailedMsg repo_name command r.returncode
          (if ooe then "\n" ++ r.stdout else "")) ∧
      strContains (commandFailedMsg repo_name command r.returncode
        (if ooe then "\n" ++ r.stdout else "")) command ∧
      strContains (commandFailedMsg repo_name command r.returncode
        (if ooe then "\n" ++ r.stdout else "")) (toString r.returncode) ∧
      (ooe = true → strContains (commandFailedMsg repo_name command r.returncode
        (if ooe then "\n" ++ r.stdout else "")) r.stdout)) ∧
    (¬(honor = true ∧ r.returncode ≠ 0) →
      run_command command repo_name honor ooe r = Except.ok r) := by
  constructor
  · rintro ⟨rfl, hrc⟩
    refine ⟨?_, ?_, ?_, ?_⟩
    · simp [run_command, hrc]
    · refine ⟨(repo_name ++ ": The following command exited with exit-code " ++
        toString r.returncode ++ ":\n").data,
        (if ooe then "\n" ++ r.stdout else "").data, ?_⟩
      rw [data_commandFailedMsg]
      simp [String.data_append]
    · refine ⟨(repo_name ++ ": The following command exited with exit-code ").data,
        ((":\n" ++ command) ++ (if ooe then "\n" ++ r.stdout else "")).data, ?_⟩
      rw [data_commandFailedMsg]
      simp [String.data_append]
    · intro hooe
      subst hooe
      refine ⟨(repo_name ++ ": The following command exited with exit-code " ++
        toString r.returncode ++ ":\n" ++ command ++ "\n").data, [], ?_⟩
      rw [data_commandFailedMsg]
      simp [String.data_append]
  · intro h
    have hcond : ¬(honor && r.returncode != 0) = true := by
      simpa [Bool.and_eq_true, bne_iff_ne] using h
    unfold run_command
    rw [if_neg hcond]

/-- Witness for C6: concrete instances of both directions. -/
theorem run_command_raise_policy_witness :
    run_command "c" "repo" true true ⟨1, "out"⟩ =
      Except.error (commandFailedMsg "repo" "c" 1 (if true then "\n" ++ "out" else "")) ∧
    run_command "c" "repo" false true ⟨1, "out"⟩ = Except.ok ⟨1, "out"⟩ :=
  ⟨((run_command_raise_policy "c" "repo" true true ⟨1, "out"⟩).1 ⟨rfl, by decide⟩).1,
    (run_command_raise_policy "c" "repo" false true ⟨1, "out"⟩).2 (by simp)⟩

theorem seqStep_err_none (a : List Event × Option String)
    (k : Unit → List Event × Option String) (ha : a.2 = none) (hk : (k ()).2 = none) :
    (seqStep a k).2 = none := by
  obtain ⟨es, err⟩ := a
  cases err with
  | none => simp [seqStep, hk]
  | some e => simp at ha

theorem seqStep_eq_of_none (a : List Event × Option String)
    (k : Unit → List Event × Option String) (ha : a.2 = none) :
    seqStep a k = (a.1 ++ (k ()).1, (k ()).2) := by
  obtain ⟨es, err⟩ := a
  cases err with
  | none => rfl
  | some e => simp at ha

theorem initRunMeta_ok_fields (cfg : Config) (w : World)
    (jr : String → RunMeta → Except String String) (m0 : ResolvedRepo) (m : RunMeta)
    (h : initRunMeta cfg w jr m0 = Except.ok m) :
    m.repo_local_name = m0.repo_local_name ∧
    m.repo_dir = cfg.repos_dir ++ "/" ++ m0.repo_local_name := by
  simp only [initRunMeta] at h
  split at h
  · split at h
    · exact absurd h (by simp)
    · injection h with h2
      subst h2
      exact ⟨rfl, rfl⟩
  · injection h with h2
    subst h2
    exact ⟨rfl, rfl⟩

theorem initRunMeta_ok_merge_branch (cfg : Config) (w : World)
    (jr : String → RunMeta → Except String String) (m0 : ResolvedRepo) (m : RunMeta)
    (t : String) (ht : cfg.merge_branch_template = some t)
    (h : initRunMeta cfg w jr m0 = Except.ok m) :
    ∃ mb, m.merge_branch = some mb := by
  simp only [initRunMeta, ht] at h
  split at h
  · exact absurd h (by simp)
  · injection h with h2
    subst h2
    exact ⟨_, rfl⟩

theorem preScriptStep_err (cfg : Config) (w : World) (m : RunMeta)
    (h : ∀ s, cfg.pre_script = some s → w.pre_script_result.returncode = 0) :
    (preScriptStep cfg w m).2 = none := by
  cases hps : cfg.pre_script with
  | none => simp [preScriptStep, hps]
  | some s =>
    have h0 := h s hps
    simp [preScriptStep, hps, seqStep, runCmdStep, run_command, h0]

theorem repoCheckStep_err (cfg : Config) (w : World) (m : RunMeta)
    (h : w.git_repo_present = true) : (repoCheckStep cfg w m).2 = none := by
  simp [repoCheckStep, h]

theorem gitCheckoutPrep_err (w : World) (m : RunMeta)
    (h1 : w.reset_result.returncode = 0) (h2 : w.clean_result.returncode = 0)
    (h3 : w.checkout_dest_result.returncode = 0) :
    (gitCheckoutPrep w m).2 = none := by
  simp [gitCheckoutPrep, seqStep, runCmdStep, run_command, h1, h2, h3]

theorem mergeBranchSetupStep_err (cfg : Config) (w : World) (m : RunMeta)
    (hmb : ∀ t, cfg.merge_branch_template = some t → ∃ mb, m.merge_branch = some mb)
    (hco : ∀ t, cfg.merge_branch_template = some t →
      w.checkout_merge_branch_result.returncode = 0) :
    (mergeBranchSetupStep cfg w m).2 = none := by
  cases ht : cfg.merge_branch_template with
  | none => simp [mergeBranchSetupStep, ht]
  | some t =>
    obtain ⟨mb, hmb2⟩ := hmb t ht
    have h0 := hco t ht
    simp [mergeBranchSetupStep, ht, hmb2, seqStep, runCmdStep, run_command, h0]

theorem mergeStep_err (cfg : Config) (w : World) (m : RunMeta) :
    (mergeStep cfg w m).2 = none := by
  simp [mergeStep, runCmdStep, run_command]

theorem prefixPart_err (cfg : Config) (w : World) (m : RunMeta)
    (hreach : reachesMerge cfg w)
    (hmb : ∀ t, cfg.merge_branch_template = some t → ∃ mb, m.merge_branch = some mb) :
    (prefixPart cfg w m).2 = none := by
  obtain ⟨⟨hpre, hgit, hreset, hclean, hcod⟩, hmbco⟩ := hreach
  exact seqStep_err_none _ _ (preScriptStep_err cfg w m hpre)
    (seqStep_err_none _ _ (repoCheckStep_err cfg w m hgit)
      (seqStep_err_none _ _ (gitCheckoutPrep_err w m hreset hclean hcod)
        (seqStep_err_none _ _ (mergeBranchSetupStep_err cfg w m hmb hmbco)
          (mergeStep_err cfg w m))))

theorem taskMeta_ok_fields (cfg : Config) (w : World)
    (jr : String → RunMeta → Except String String) (m0 : ResolvedRepo) (m1 : RunMeta)
    (h : taskMeta cfg w jr m0 = Except.ok m1) :
    m1.repo_local_name = m0.repo_local_name ∧
    m1.repo_dir = cfg.repos_dir ++ "/" ++ m0.repo_local_name := by
  unfold taskMeta at h
  cases hi : initRunMeta cfg w jr m0 with
  | error e =>
    rw [hi] at h
    exact absurd h (by simp [Except.map])
  | ok m =>
    rw [hi] at h
    simp only [Except.map] at h
    injection h with h2
    subst h2
    exact initRunMeta_ok_fields cfg w jr m0 m hi

theorem taskMeta_ok_merge_branch (cfg : Config) (w : World)
    (jr : String → RunMeta → Except String String) (m0 : ResolvedRepo) (m1 : RunMeta)
    (t : String) (ht : cfg.merge_branch_template = some t)
    (h : taskMeta cfg w jr m0 = Except.ok m1) :
    ∃ mb, m1.merge_branch = some mb := by
  unfold taskMeta at h
  cases hi : initRunMeta cfg w jr m0 with
  | error e =>
    rw [hi] at h
    exact absurd h (by simp [Except.map])
  | ok m =>
    rw [hi] at h
    simp only [Except.map] at h
    injection h with h2
    subst h2
    exact initRunMeta_ok_merge_branch cfg w jr m0 m t ht hi

theorem execute_merge_ok (cfg : Config) (w : World)
    (jr : String → RunMeta → Except String String) (m0 : ResolvedRepo) (m1 : RunMeta)
    (hinit : taskMeta cfg w jr m0 = Except.ok m1) :
    execute_merge cfg w jr m0 =
      Except.ok (finalizeTask m1 w (tryBody cfg w m1)) := by
  unfold execute_merge
  rw [hinit]

theorem execute_merge_eq (cfg : Config) (w : World)
    (jr : String → RunMeta → Except String String) (m0 : ResolvedRepo) (m1 : RunMeta)
    (hinit : taskMeta cfg w jr m0 = Except.ok m1) (es : List Event)
    (err : Option String) (hbody : tryBody cfg w m1 = (es, err)) :
    execute_merge cfg w jr m0 = Except.ok (finalizeTask m1 w (es, err)) := by
  rw [execute_merge_ok cfg w jr m0 m1 hinit, hbody]

theorem execute_merge_error (cfg : Config) (w : World)
    (jr : String → RunMeta → Except String String) (m0 : ResolvedRepo) (e : String)
    (h : execute_merge cfg w jr m0 = Except.error e) :
    taskMeta cfg w jr m0 = Except.error e := by
  unfold execute_merge at h
  split at h
  · rename_i e2 heq
    injection h with h2
    subst h2
    exact heq
  · exact absurd h (by simp)

/-- C4 (amended): for every descriptor whose merge-branch rendering (which
runs before the `try` block) succeeds, `execute_merge` always finalizes the
descriptor — `task_end`, `task_duration` and `task_finish_status` are set and
the final log lines (summary line and final snapshot) are written — and every
error raised by a step inside the `try` block is caught at the task boundary,
recorded as the failure status plus error detail, and returned as a value;
the only exception that escapes the task uncaught is a failure of the
pre-`try` merge-branch rendering itself. -/
theorem execute_merge_finalizes_and_captures_errors :
    (∀ (cfg : Config) (w : World) (jr : String → RunMeta → Except String String)
      (m0 : ResolvedRepo) (m1 : RunMeta), taskMeta cfg w jr m0 = Except.ok m1 →
      ∃ r, execute_merge cfg w jr m0 = Except.ok r ∧
        r.finalMeta.task_end = some w.task_end ∧
        r.finalMeta.task_duration = some (w.task_end - w.task_start) ∧
        (r.retval = none → r.finalMeta.task_finish_status = some "successfully" ∧
          r.finalMeta.task_error_details = some "") ∧
        (∀ p, r.retval = some p → p.1 = m0.repo_local_name ∧
          r.finalMeta.task_finish_status = some "with FAILURE" ∧
          r.finalMeta.task_error_details = some p.2) ∧
        (∃ es st, r.finalMeta.task_finish_status = some st ∧
          r.events = es ++ [Event.log (finishedMsg m0.repo_local_name st ++ "\n"),
            Event.log "repo_metadata at task-end"])) ∧
    (∀ (cfg : Config) (w : World) (jr : String → RunMeta → Except String String)
      (m0 : ResolvedRepo) (e : String), execute_merge cfg w jr m0 = Except.error e →
      taskMeta cfg w jr m0 = Except.error e) := by
  constructor
  · intro cfg w jr m0 m1 hinit
    have hname := (taskMeta_ok_fields cfg w jr m0 m1 hinit).1
    rcases hbody : tryBody cfg w m1 with ⟨es, err⟩
    refine ⟨finalizeTask m1 w (es, err),
      execute_merge_eq cfg w jr m0 m1 hinit es err hbody, ?_, ?_, ?_, ?_, ?_⟩
    · rfl
    · rfl
    · cases err with
      | none => exact fun _ => ⟨rfl, rfl⟩
      | some e => exact fun hp => absurd hp (by simp [finalizeTask])
    · cases err with
      | none => exact fun p hp => absurd hp (by simp [finalizeTask])
      | some e =>
        intro p hp
        have hpe : p = (m1.repo_local_name, e) := by
          have := hp.symm
          simpa [finalizeTask] using this
        subst hpe
        exact ⟨hname, rfl, rfl⟩
    · cases err with
      | none =>
        refine ⟨Event.log (startedMsg m1.repo_local_name ++ "\n") ::
          Event.log "repo_metadata at task-begin" :: es, "successfully", rfl, ?_⟩
        simp [finalizeTask, hname]
      | some e =>
        refine ⟨Event.log (startedMsg m1.repo_local_name ++ "\n") ::
          Event.log "repo_metadata at task-begin" :: es, "with FAILURE", rfl, ?_⟩
        simp [finalizeTask, hname]
  · intro cfg w jr m0 e h
    exact execute_merge_error cfg w jr m0 e h

/-- C4 counterexample: a merge-branch template is configured and its rendering
raises; line 379 runs before the `try` block, so the exception escapes
`execute_merge` uncaught — no `TaskResult` is produced, finalization is
skipped, and no error value is returned to the orchestrator. -/
theorem render_failure_escapes_execute_merge :
    sampleCfgMB.merge_branch_template = some "tpl" ∧
    execute_merge sampleCfgMB sampleWorld sampleJrFail sampleRepo =
      Except.error
        "jinja2.exceptions.TemplateSyntaxError: unexpected end of template" :=
  ⟨rfl, rfl⟩

/-- Witness for C4. -/
theorem execute_merge_finalizes_witness :
    ∃ r, execute_merge sampleCfg sampleWorld (fun _ _ => Except.ok "mb") sampleRepo =
        Except.ok r ∧ r.finalMeta.task_end = some sampleWorld.task_end :=
  (execute_merge_finalizes_and_captures_errors.1 sampleCfg sampleWorld
    (fun _ _ => Except.ok "mb") sampleRepo sampleTaskMeta rfl).imp
    (fun r hr => ⟨hr.1, hr.2.1⟩)

/-- C3: when the git merge command exits non-zero, the configured post-script
still runs (its command event appears in the trace, with no further command
after it), and only then is the task marked failed: the failure status is
recorded in the finalization that follows the post-script step, and — when the
post-script itself succeeds — the recorded error is the deferred merge
failure. -/
theorem postscript_runs_before_merge_failure_signal (cfg : Config) (w : World)
    (jr : String → RunMeta → Except String String) (m0 : ResolvedRepo)
    (m1 : RunMeta) (hinit : taskMeta cfg w jr m0 = Except.ok m1)
    (hreach : reachesMerge cfg w) (ps : String) (hpost : cfg.post_script = some ps)
    (hmerge : w.merge_result.returncode ≠ 0) :
    ∃ r, execute_merge cfg w jr m0 = Except.ok r ∧
      (∃ p s, r.events =
          p ++ Event.command ps true w.post_script_result.returncode :: s ∧
          ∀ c hr rc, Event.command c hr rc ∉ s) ∧
      r.finalMeta.task_finish_status = some "with FAILURE" ∧
      (w.post_script_result.returncode = 0 →
        r.finalMeta.task_error_details =
          some (mergeFailedMsg (cfg.repos_dir ++ "/" ++ m0.repo_local_name)
            w.merge_result.stdout)) := by
  have hmb : ∀ t, cfg.merge_branch_template = some t →
      ∃ mb, m1.merge_branch = some mb :=
    fun t ht => taskMeta_ok_merge_branch cfg w jr m0 m1 t ht hinit
  have hdir := (taskMeta_ok_fields cfg w jr m0 m1 hinit).2
  have hpp0 : (prefixPart cfg w m1).2 = none :=
    prefixPart_err cfg w _ hreach hmb
  rcases hpe : prefixPart cfg w m1 with ⟨pes, perr⟩
  rw [hpe] at hpp0
  simp only [] at hpp0
  subst hpp0
  have htb : tryBody cfg w m1 =
      (pes ++ (seqStep (postScriptStep cfg w m1)
        (fun _ => mergeSignalStep w m1)).1,
       (seqStep (postScriptStep cfg w m1)
        (fun _ => mergeSignalStep w m1)).2) := by
    unfold tryBody
    rw [hpe]
    rfl
  have hsig : mergeSignalStep w m1 =
      ([], some (mergeFailedMsg (cfg.repos_dir ++ "/" ++ m0.repo_local_name)
        w.merge_result.stdout)) := by
    simp [mergeSignalStep, hmerge, hdir]
  by_cases hprc : w.post_script_result.returncode = 0
  · have hps : postScriptStep cfg w m1 =
        ([Event.log "POST-SCRIPT BEGIN >>>>>\n\n",
          Event.command ps true w.post_script_result.returncode,
          Event.log ">>>>> POST-SCRIPT END\n\n"], none) := by
      simp [postScriptStep, hpost, seqStep, runCmdStep, run_command, hprc]
    have hseq : seqStep (postScriptStep cfg w m1)
        (fun _ => mergeSignalStep w m1) =
        ([Event.log "POST-SCRIPT BEGIN >>>>>\n\n",
          Event.command ps true w.post_script_result.returncode,
          Event.log ">>>>> POST-SCRIPT END\n\n"],
         some (mergeFailedMsg (cfg.repos_dir ++ "/" ++ m0.repo_local_name)
           w.merge_result.stdout)) := by
      rw [hps, seqStep_none, hsig]
      simp
    have htb2 : tryBody cfg w m1 =
        (pes ++ [Event.log "POST-SCRIPT BEGIN >>>>>\n\n",
          Event.command ps true w.post_script_result.returncode,
          Event.log ">>>>> POST-SCRIPT END\n\n"],
         some (mergeFailedMsg (cfg.repos_dir ++ "/" ++ m0.repo_local_name)
           w.merge_result.stdout)) := by
      rw [htb, hseq]
    refine ⟨finalizeTask m1 w (tryBody cfg w m1),
      execute_merge_ok cfg w jr m0 m1 hinit, ?_, ?_, ?_⟩
    · refine ⟨Event.log (startedMsg m1.repo_local_name ++ "\n") ::
        Event.log "repo_metadata at task-begin" ::
        (pes ++ [Event.log "POST-SCRIPT BEGIN >>>>>\n\n"]),
        [Event.log ">>>>> POST-SCRIPT END\n\n",
         Event.log (finishedMsg m1.repo_local_name "with FAILURE" ++ "\n"),
         Event.log "repo_metadata at task-end"], ?_, ?_⟩
      · rw [htb2]
        simp [finalizeTask]
      · intro c hr rc
        simp
    · rw [htb2]
      rfl
    · intro _
      rw [htb2]
      rfl
  · have hps : postScriptStep cfg w m1 =
        ([Event.log "POST-SCRIPT BEGIN >>>>>\n\n",
          Event.command ps true w.post_script_result.returncode],
         some (commandFailedMsg m1.repo_local_name ps
           w.post_script_result.returncode "")) := by
      simp [postScriptStep, hpost, seqStep, runCmdStep, run_command, hprc]
    have hseq : seqStep (postScriptStep cfg w m1)
        (fun _ => mergeSignalStep w m1) =
        ([Event.log "POST-SCRIPT BEGIN >>>>>\n\n",
          Event.command ps true w.post_script_result.returncode],
         some (commandFailedMsg m1.repo_local_name ps
           w.post_script_result.returncode "")) := by
      rw [hps, seqStep_some]
    have htb2 : tryBody cfg w m1 =
        (pes ++ [Event.log "POST-SCRIPT BEGIN >>>>>\n\n",
          Event.command ps true w.post_script_result.returncode],
         some (commandFailedMsg m1.repo_local_name ps
           w.post_script_result.returncode "")) := by
      rw [htb, hseq]
    refine ⟨finalizeTask m1 w (tryBody cfg w m1),
      execute_merge_ok cfg w jr m0 m1 hinit, ?_, ?_, ?_⟩
    · refine ⟨Event.log (startedMsg m1.repo_local_name ++ "\n") ::
        Event.log "repo_metadata at task-begin" ::
        (pes ++ [Event.log "POST-SCRIPT BEGIN >>>>>\n\n"]),
        [Event.log (finishedMsg m1.repo_local_name "with FAILURE" ++ "\n"),
         Event.log "repo_metadata at task-end"], ?_, ?_⟩
      · rw [htb2]
        simp [finalizeTask]
      · intro c hr rc
        simp
    · rw [htb2]
      rfl
    · intro h0
      exact absurd h0 hprc

/-- Witness for C3. -/
theorem postscript_runs_before_merge_failure_witness :
    ∃ r, execute_merge sampleCfg sampleWorld (fun _ _ => Except.ok "mb")
        sampleRepo = Except.ok r ∧
      r.finalMeta.task_finish_status = some "with FAILURE" :=
  (postscript_runs_before_merge_failure_signal sampleCfg sampleWorld
    (fun _ _ => Except.ok "mb") sampleRepo sampleTaskMeta rfl
    ⟨⟨fun s h => by simp [sampleCfg] at h, rfl, rfl, rfl, rfl⟩,
      fun t h => by simp [sampleCfg] at h⟩
    "post.sh" rfl (by decide)).imp
    (fun r hr => ⟨hr.1, hr.2.2.1⟩)

theorem seqStep_events_decomp (a : List Event × Option String)
    (k : Unit → List Event × Option String) : ∃ y, (seqStep a k).1 = a.1 ++ y := by
  obtain ⟨es, err⟩ := a
  cases err with
  | none => exact ⟨(k ()).1, rfl⟩
  | some e => exact ⟨[], (List.append_nil _).symm⟩

theorem cmds_preScriptStep (cfg : Config) (w : World) (m : RunMeta) (c : String)
    (hr : Bool) (rc : Int) (h : Event.command c hr rc ∈ (preScriptStep cfg w m).1) :
    cfg.pre_script = some c := by
  cases hps : cfg.pre_script with
  | none => simp [preScriptStep, hps] at h
  | some s =>
    simp only [preScriptStep, hps] at h
    rcases mem_seqStep _ _ h with h1 | h1
    · simp at h1
    · rcases mem_seqStep _ _ h1 with h2 | h2
      · simp [runCmdStep] at h2
        rw [h2.1]
      · simp at h2

theorem cmds_postScriptStep (cfg : Config) (w : World) (m : RunMeta) (c : String)
    (hr : Bool) (rc : Int) (h : Event.command c hr rc ∈ (postScriptStep cfg w m).1) :
    cfg.post_script = some c := by
  cases hps : cfg.post_script with
  | none => simp [postScriptStep, hps] at h
  | some s =>
    simp only [postScriptStep, hps] at h
    rcases mem_seqStep _ _ h with h1 | h1
    · simp at h1
    · rcases mem_seqStep _ _ h1 with h2 | h2
      · simp [runCmdStep] at h2
        rw [h2.1]
      · simp at h2

theorem cmds_gitCheckoutPrep (w : World) (m : RunMeta) (c : String) (hr : Bool)
    (rc : Int) (h : Event.command c hr rc ∈ (gitCheckoutPrep w m).1) :
    c = "git -C " ++ m.repo_dir ++ " reset --hard" ∨
    c = "git -C " ++ m.repo_dir ++ " clean -fd" ∨
    c = "git -C " ++ m.repo_dir ++ " checkout " ++ m.dest_branch := by
  unfold gitCheckoutPrep at h
  rcases mem_seqStep _ _ h with h1 | h1
  · simp [runCmdStep] at h1
    exact Or.inl h1.1
  · rcases mem_seqStep _ _ h1 with h2 | h2
    · simp [runCmdStep] at h2
      exact Or.inr (Or.inl h2.1)
    · simp [runCmdStep] at h2
      exact Or.inr (Or.inr h2.1)

theorem cmds_mergeBranchSetupStep (cfg : Config) (w : World) (m : RunMeta)
    (c : String) (hr : Bool) (rc : Int)
    (h : Event.command c hr rc ∈ (mergeBranchSetupStep cfg w m).1) :
    ∃ mb, m.merge_branch = some mb ∧
      (c = showRefCmd m mb ∨
        c = checkoutMergeBranchCmd m
          (if w.show_ref_result.returncode = 0 then "" else "-b ") mb) := by
  cases ht : cfg.merge_branch_template with
  | none => simp [mergeBranchSetupStep, ht] at h
  | some t =>
    cases hmb : m.merge_branch with
    | none => simp [mergeBranchSetupStep, ht, hmb] at h
    | some mb =>
      simp only [mergeBranchSetupStep, ht, hmb] at h
      rcases mem_seqStep _ _ h with h1 | h1
      · simp [runCmdStep] at h1
        exact ⟨mb, rfl, Or.inl h1.1⟩
      · rcases mem_seqStep _ _ h1 with h2 | h2
        · simp at h2
        · simp [runCmdStep] at h2
          exact ⟨mb, rfl, Or.inr h2.1⟩

theorem cmds_mergeStep (cfg : Config) (w : World) (m : RunMeta) (c : String)
    (hr : Bool) (rc : Int) (h : Event.command c hr rc ∈ (mergeStep cfg w m).1) :
    c = mergeCmd cfg m := by
  simp [mergeStep, runCmdStep] at h
  exact h.1

theorem cmds_execute_merge (cfg : Config) (w : World) (m1 : RunMeta) (c : String)
    (hr : Bool) (rc : Int)
    (h : Event.command c hr rc ∈ (finalizeTask m1 w (tryBody cfg w m1)).events) :
    c ∈ allowedCommands cfg w m1 := by
  have h2 : Event.command c hr rc ∈ (tryBody cfg w m1).1 := by
    rcases hbody : tryBody cfg w m1 with ⟨es, err⟩
    simp [finalizeTask] at h
    rw [hbody] at h
    simpa using h
  unfold tryBody at h2
  rcases mem_seqStep _ _ h2 with h3 | h3
  · unfold prefixPart at h3
    rcases mem_seqStep _ _ h3 with h4 | h4
    · have hc := cmds_preScriptStep cfg w _ c hr rc h4
      simp [allowedCommands, hc]
    · rcases mem_seqStep _ _ h4 with h5 | h5
      · by_cases hg : w.git_repo_present <;> simp [repoCheckStep, hg] at h5
      · rcases mem_seqStep _ _ h5 with h6 | h6
        · rcases cmds_gitCheckoutPrep w _ c hr rc h6 with hc | hc | hc <;>
            simp [allowedCommands, hc]
        · rcases mem_seqStep _ _ h6 with h7 | h7
          · obtain ⟨mb, hmb, hc⟩ := cmds_mergeBranchSetupStep cfg w _ c hr rc h7
            rcases hc with hc | hc <;> simp [allowedCommands, hmb, hc]
          · have hc := cmds_mergeStep cfg w _ c hr rc h7
            simp [allowedCommands, hc]
  · rcases mem_seqStep _ _ h3 with h4 | h4
    · have hc := cmds_postScriptStep cfg w _ c hr rc h4
      simp [allowedCommands, hc]
    · by_cases hm : w.merge_result.returncode = 0 <;> simp [mergeSignalStep, hm] at h4

theorem seqStep_events_of_none (a : List Event × Option String)
    (k : Unit → List Event × Option String) (ha : a.2 = none) :
    (seqStep a k).1 = a.1 ++ (k ()).1 := by
  rw [seqStep_eq_of_none a k ha]

theorem prefixPart_events (cfg : Config) (w : World) (m : RunMeta)
    (hpre : ∀ s, cfg.pre_script = some s → w.pre_script_result.returncode = 0)
    (hgit : w.git_repo_present = true)
    (hreset : w.reset_result.returncode = 0) (hclean : w.clean_result.returncode = 0)
    (hcod : w.checkout_dest_result.returncode = 0) :
    (prefixPart cfg w m).1 =
      (preScriptStep cfg w m).1 ++ ((repoCheckStep cfg w m).1 ++
        ((gitCheckoutPrep w m).1 ++
          (seqStep (mergeBranchSetupStep cfg w m) (fun _ => mergeStep cfg w m)).1)) := by
  simp only [prefixPart,
    seqStep_events_of_none _ _ (preScriptStep_err cfg w m hpre),
    seqStep_events_of_none _ _ (repoCheckStep_err cfg w m hgit),
    seqStep_events_of_none _ _ (gitCheckoutPrep_err w m hreset hclean hcod)]

theorem mergeBranchSetupStep_events (cfg : Config) (w : World) (m : RunMeta)
    (t : String) (ht : cfg.merge_branch_template = some t) (mb : String)
    (hmb : m.merge_branch = some mb) :
    (mergeBranchSetupStep cfg w m).1 =
      [Event.command (showRefCmd m mb) false w.show_ref_result.returncode,
       Event.log (if w.show_ref_result.returncode = 0
         then "  (Merge-branch is present, reuse it)\n\n"
         else "  (Merge-branch not present)\n\n"),
       Event.command (checkoutMergeBranchCmd m
         (if w.show_ref_result.returncode = 0 then "" else "-b ") mb) true
         w.checkout_merge_branch_result.returncode] := by
  simp only [mergeBranchSetupStep, ht, hmb]
  simp [seqStep, runCmdStep, run_command]

/-- C7: with a merge-branch template configured and the task reaching the
merge-branch setup step, the step first probes for the rendered branch name
with `honor_returncode=False`, writes the reuse/create note, and then checks
the branch out — with no `-b` flag when the probe succeeded (reuse) and with
`-b ` when it failed (create fresh); moreover every command the whole task
ever runs is one of the two hook scripts or the six fixed git invocations, so
the step never deletes an existing merge branch. -/
theorem merge_branch_setup_probe_then_reuse_or_create (cfg : Config) (w : World)
    (jr : String → RunMeta → Except String String) (m0 : ResolvedRepo)
    (m1 : RunMeta) (hinit : taskMeta cfg w jr m0 = Except.ok m1)
    (hreach : reachesMergeBranchSetup cfg w) (t : String)
    (ht : cfg.merge_branch_template = some t) (mb : String)
    (hmb : m1.merge_branch = some mb) :
    ∃ r, execute_merge cfg w jr m0 = Except.ok r ∧
      (∃ p s, r.events =
        p ++ [Event.command (showRefCmd m1 mb) false w.show_ref_result.returncode,
          Event.log (if w.show_ref_result.returncode = 0
            then "  (Merge-branch is present, reuse it)\n\n"
            else "  (Merge-branch not present)\n\n"),
          Event.command (checkoutMergeBranchCmd m1
            (if w.show_ref_result.returncode = 0 then "" else "-b ") mb) true
            w.checkout_merge_branch_result.returncode] ++ s) ∧
      (∀ c hr rc, Event.command c hr rc ∈ r.events →
        c ∈ allowedCommands cfg w m1) := by
  obtain ⟨hpre, hgit, hreset, hclean, hcod⟩ := hreach
  refine ⟨finalizeTask m1 w (tryBody cfg w m1),
    execute_merge_ok cfg w jr m0 m1 hinit, ?_,
    fun c hr rc h => cmds_execute_merge cfg w m1 c hr rc h⟩
  obtain ⟨y0, hy0⟩ := seqStep_events_decomp (prefixPart cfg w m1)
    (fun _ => seqStep (postScriptStep cfg w m1)
      (fun _ => mergeSignalStep w m1))
  have e1 : (tryBody cfg w m1).1 = (prefixPart cfg w m1).1 ++ y0 := hy0
  obtain ⟨y1, hy1⟩ := seqStep_events_decomp (mergeBranchSetupStep cfg w m1)
    (fun _ => mergeStep cfg w m1)
  have e2 := prefixPart_events cfg w m1 hpre hgit hreset hclean hcod
  have e3 := mergeBranchSetupStep_events cfg w m1 t ht mb hmb
  rcases hbody : tryBody cfg w m1 with ⟨es, err⟩
  have hes : es = (tryBody cfg w m1).1 := by rw [hbody]
  obtain ⟨F, hF⟩ : ∃ F, (finalizeTask m1 w (es, err)).events =
      [Event.log (startedMsg m1.repo_local_name ++ "\n"),
       Event.log "repo_metadata at task-begin"] ++ es ++ F := ⟨_, rfl⟩
  rw [hF]
  refine ⟨Event.log (startedMsg m1.repo_local_name ++ "\n") ::
    Event.log "repo_metadata at task-begin" ::
    ((preScriptStep cfg w m1).1 ++
      (repoCheckStep cfg w m1).1 ++
      (gitCheckoutPrep w m1).1),
    y1 ++ y0 ++ F, ?_⟩
  rw [hes, e1, e2, hy1, e3]
  simp [List.append_assoc]

/-- Witness for C7. -/
theorem merge_branch_setup_witness :
    ∃ r, execute_merge sampleCfgMB sampleWorld (fun _ _ => Except.ok "mb")
        sampleRepo = Except.ok r ∧
      ∃ p s, r.events =
        p ++ [Event.command (showRefCmd sampleTaskMetaMB "mb") false
            sampleWorld.show_ref_result.returncode,
          Event.log (if sampleWorld.show_ref_result.returncode = 0
            then "  (Merge-branch is present, reuse it)\n\n"
            else "  (Merge-branch not present)\n\n"),
          Event.command (checkoutMergeBranchCmd sampleTaskMetaMB
            (if sampleWorld.show_ref_result.returncode = 0 then "" else "-b ") "mb")
            true sampleWorld.checkout_merge_branch_result.returncode] ++ s :=
  (merge_branch_setup_probe_then_reuse_or_create sampleCfgMB sampleWorld
    (fun _ _ => Except.ok "mb") sampleRepo sampleTaskMetaMB rfl
    ⟨fun s h => by simp [sampleCfgMB] at h, rfl, rfl, rfl, rfl⟩
    "tpl" rfl "mb" rfl).imp
    (fun r hr => ⟨hr.1, hr.2.1⟩)
